import Mathlib

/-!  Verification development for the Firecrawl lambda scraper
     (src/lambda_firecrawl_scraper.py).

     Python strings are modelled over `List Char` (the model of Lean
     `String`), so every operation reduces in the kernel.  External
     collaborators (the crawl service, the HTTP transport, the image
     decoder, the markup parser, the hash library) are received through
     explicit interfaces, exactly at the boundaries where the source
     consumes them.  -/

/-- Characters treated as whitespace by Python's default string strip and
    split and by the regex class of whitespace, restricted to ASCII (all
    inputs handled by the scraper are ASCII-compatible on these paths). -/
def pyIsSpace (c : Char) : Bool :=
  c == ' ' || c == '\t' || c == '\n' || c == '\r' ||
    c == Char.ofNat 11 || c == Char.ofNat 12

/-- Character list of a string. -/
def strL (s : String) : List Char := s.data

/-- String from a character list. -/
def ofL (l : List Char) : String := ⟨l⟩

/-- Models the Python containment test of `needle` inside `hay` on the
    character-list level. -/
def listHasSub (needle : List Char) : List Char → Bool
  | [] => needle.isPrefixOf []
  | c :: t => needle.isPrefixOf (c :: t) || listHasSub needle t

/-- Models the Python expression of membership of `needle` in `hay` for
    strings (substring containment). -/
def strHasSub (hay needle : String) : Bool := listHasSub (strL needle) (strL hay)

/-- Models Python lower-casing for the ASCII range. -/
def pyLower (s : String) : String := ofL ((strL s).map Char.toLower)

/-- Models Python string strip with no argument (whitespace both ends). -/
def pyStrip (s : String) : String :=
  ofL ((((strL s).dropWhile pyIsSpace).reverse.dropWhile pyIsSpace).reverse)

/-- Models Python startswith. -/
def strStarts (s p : String) : Bool := (strL p).isPrefixOf (strL s)

/-- Models Python endswith. -/
def strEnds (s p : String) : Bool := (strL p).isSuffixOf (strL s)

/-- Splits a character list at the first occurrence of `c`: the part
    before, and the part after when `c` occurs. -/
def splitAtFirst (c : Char) : List Char → List Char × Option (List Char)
  | [] => ([], none)
  | x :: t =>
    if x == c then ([], some t)
    else
      let r := splitAtFirst c t
      (x :: r.1, r.2)

/-- Valid scheme characters of a URL per the stdlib URL splitter. -/
def isSchemeChar (c : Char) : Bool := c.isAlphanum || c == '+' || c == '-' || c == '.'

/-- A candidate scheme is valid when nonempty, starting with a letter, and
    made of scheme characters only. -/
def validScheme : List Char → Bool
  | [] => false
  | c :: t => c.isAlpha && (c :: t).all isSchemeChar

/-- Result of the stdlib URL parse, restricted to the fields the scraper
    reads (netloc, path, query) plus the params and scheme components the
    parse separates on the way. -/
structure URLParts where
  scheme : String
  netloc : String
  path : String
  params : String
  query : String
deriving DecidableEq

/-- The schemes for which the stdlib URL parse splits parameters off the
    last path segment. -/
def uses_params : List String :=
  ["", "ftp", "hdl", "prospero", "http", "imap", "https", "imaps", "ipp",
   "ipps", "mms", "sdp", "sip", "sips", "rtsp", "rtspu", "sftp", "svn",
   "svn+ssh", "nfs", "git", "git+ssh", "ws", "wss"]

/-- Splits the parameters off a path component, as the stdlib does: when
    the path contains a slash, the split happens at the first semicolon of
    the last segment (none there means no split); otherwise at the first
    semicolon of the whole path. -/
def splitParamsL (path : List Char) : List Char × List Char :=
  if path.contains '/' then
    let lastSeg := (path.reverse.takeWhile (fun c => c != '/')).reverse
    let pre := path.take (path.length - lastSeg.length)
    match splitAtFirst ';' lastSeg with
    | (b, some a) => (pre ++ b, a)
    | (_, none) => (path, [])
  else
    match splitAtFirst ';' path with
    | (b, some a) => (b, a)
    | (b, none) => (b, [])

/-- Models the stdlib urlparse for the URL strings the scraper builds: an
    optional fragment after the first hash sign is discarded, an optional
    scheme is terminated by a colon, a netloc after a double slash runs to
    the next slash, question mark or hash sign, then the query after the
    first question mark; finally, for the schemes that use them, the
    parameters after the first semicolon of the last path segment are
    split off the path. -/
def urlparse (url : String) : URLParts :=
  let l1 := (splitAtFirst '#' (strL url)).1
  let schemeRest :=
    match splitAtFirst ':' l1 with
    | (before, some after) =>
      if validScheme before then (before.map Char.toLower, after) else (([] : List Char), l1)
    | (_, none) => (([] : List Char), l1)
  let scheme := schemeRest.1
  let rest := schemeRest.2
  let netlocRest :=
    if ['/', '/'].isPrefixOf rest then
      let afterSlashes := rest.drop 2
      let pred := fun c => !(c == '/' || c == '?' || c == '#')
      (afterSlashes.takeWhile pred, afterSlashes.dropWhile pred)
    else (([] : List Char), rest)
  let pathQuery :=
    match splitAtFirst '?' netlocRest.2 with
    | (b, some a) => (b, a)
    | (b, none) => (b, ([] : List Char))
  let pathParams :=
    if uses_params.contains (ofL scheme) && pathQuery.1.contains ';' then
      splitParamsL pathQuery.1
    else (pathQuery.1, ([] : List Char))
  ⟨ofL scheme, ofL netlocRest.1, ofL pathParams.1, ofL pathParams.2, ofL pathQuery.2⟩

/-- Models the stdlib urljoin for the call shapes the scraper uses: an
    absolute http or https base URL joined with a reference that is either
    absolute, protocol-relative, root-relative, or a plain relative path. -/
def urljoin (base rel : String) : String :=
  let b := urlparse base
  if rel = "" then base
  else if (urlparse rel).scheme ≠ "" then rel
  else if strStarts rel "//" then b.scheme ++ ":" ++ rel
  else if strStarts rel "/" then b.scheme ++ "://" ++ b.netloc ++ rel
  else
    let bp := strL b.path
    let dir := (bp.reverse.dropWhile (fun c => !(c == '/'))).reverse
    let dir := if dir = [] then ['/'] else dir
    b.scheme ++ "://" ++ b.netloc ++ ofL dir ++ rel

/-- Allowed domains configured in the scraper constructor. -/
def allowed_domains : List String := ["jiopay.com", "www.jiopay.com"]

/-- Keyword denylist of the policy filter. -/
def gated_keywords : List String :=
  ["login", "signin", "account", "profile", "dashboard", "admin", "user",
   "password", "token", "auth", "private", "secure"]

/-- Models the policy filter of the scraper.  The robots state is `none`
    when no robots file could be loaded at startup; `some f` models the
    robots lookup with lookup exceptions already resolved to allowed, as
    the except branch of the source does. -/
def is_url_allowed (robots : Option (String → Bool)) (doms : List String)
    (url : String) : Bool :=
  let robots_allowed := match robots with | none => true | some f => f url
  let parsed := urlparse url
  let domain_allowed := doms.any (fun d => strHasSub parsed.netloc d)
  let path_lower := pyLower parsed.path
  let query_lower := pyLower parsed.query
  let is_public :=
    !(gated_keywords.any (fun kw => strHasSub path_lower kw || strHasSub query_lower kw))
  robots_allowed && domain_allowed && is_public

/-- Deletes every occurrence of an http or https scheme prefix, scanning
    left to right, as the substitution in the filename deriver does.  The
    fuel argument bounds the recursion; callers pass the input length,
    which suffices because every step consumes at least one character. -/
def stripSchemesGo : Nat → List Char → List Char
  | 0, l => l
  | fuel + 1, l =>
    match l with
    | [] => []
    | c :: cs =>
      if (strL "https://").isPrefixOf (c :: cs) then stripSchemesGo fuel ((c :: cs).drop 8)
      else if (strL "http://").isPrefixOf (c :: cs) then stripSchemesGo fuel ((c :: cs).drop 7)
      else c :: stripSchemesGo fuel cs

/-- Scheme removal of the filename deriver. -/
def stripSchemes (l : List Char) : List Char := stripSchemesGo l.length l

/-- Characters kept by the character-class substitution in the filename
    deriver: the complement of the replaced class. -/
def keepFilenameChar (c : Char) : Bool :=
  c.isLower || c.isUpper || c.isDigit || c == '_' || c == '-'

/-- Models the page filename deriver of the scraper; `ts` stands for the
    wall-clock timestamp string of second resolution. -/
def generate_filename (url ext ts : String) : String :=
  let clean := stripSchemes (strL url)
  let clean := clean.map (fun c => if keepFilenameChar c then c else '_')
  let clean := if clean.length > 100 then clean.take 100 else clean
  ofL clean ++ "_" ++ ts ++ "." ++ ext

/-- Stated from the claim: the scheme-stripped URL with every character
    that is not alphanumeric replaced by an underscore, truncated to one
    hundred characters, then timestamp and extension. -/
def pageFilenameClaim (url ext ts : String) : String :=
  let clean := stripSchemes (strL url)
  let clean := clean.map (fun c => if c.isAlphanum then c else '_')
  let clean := clean.take 100
  ofL clean ++ "_" ++ ts ++ "." ++ ext

/-- Stated from the amended claim: every character other than a letter, a
    digit, an underscore or a hyphen is replaced by an underscore. -/
def pageFilenameAmended (url ext ts : String) : String :=
  let clean := stripSchemes (strL url)
  let clean := clean.map (fun c => if c.isAlphanum || c == '_' || c == '-' then c else '_')
  let clean := clean.take 100
  ofL clean ++ "_" ++ ts ++ "." ++ ext

/-- One element of the parsed HTML document, as the external markup parser
    presents it: tag name and attributes, in document order. -/
structure HElem where
  tag : String
  attrs : List (String × String)
deriving DecidableEq

/-- Image file extensions recognised by the candidate filter. -/
def image_extensions : List String :=
  [".jpg", ".jpeg", ".png", ".gif", ".webp", ".svg", ".bmp"]

/-- Models the image-URL candidate filter of the scraper. -/
def is_valid_image_url (url : String) : Bool :=
  if url = "" then false
  else if strStarts url "data:" then false
  else if ["1x1", "1px", "pixel"].any (fun d => strHasSub (pyLower url) d) then false
  else
    let url_lower := pyLower url
    if image_extensions.any (fun e => strEnds url_lower e) then true
    else if ["image", "img", "photo", "picture"].any (fun k => strHasSub url_lower k) then true
    else false

/-- The relative-to-absolute normalisation applied to every accepted image
    source in the image discoverer. -/
def normalizeImageSrc (base src : String) : String :=
  if strStarts src "//" then "https:" ++ src
  else if strStarts src "/" then urljoin base src
  else if !(strStarts src "http://" || strStarts src "https://") then urljoin base src
  else src

/-- The single-quote character. -/
def squote : Char := Char.ofNat 39

/-- The double-quote character. -/
def dquote : Char := Char.ofNat 34

/-- Attempts the background-image pattern of the discoverer at the head of
    the list; on success returns the captured URL group and the input after
    the whole match.  The backtracking of the two optional quote characters
    collapses to the deterministic case split implemented here: after an
    optional opening quote, a nonempty run of characters other than quotes
    and the closing parenthesis must be followed by the parenthesis,
    optionally preceded by one quote. -/
def bgMatchHere (l : List Char) : Option (List Char × List Char) :=
  if (strL "background-image:").isPrefixOf l then
    let l1 := (l.drop 17).dropWhile pyIsSpace
    if (strL "url(").isPrefixOf l1 then
      let l2 := l1.drop 4
      let l3 :=
        match l2 with
        | q :: t => if q == squote || q == dquote then t else l2
        | [] => l2
      let cap := l3.takeWhile (fun ch => !(ch == squote || ch == dquote || ch == ')'))
      if cap = [] then none
      else
        match l3.drop cap.length with
        | ')' :: t => some (cap, t)
        | q :: ')' :: t => if q == squote || q == dquote then some (cap, t) else none
        | _ => none
    else none
  else none

/-- Left-to-right non-overlapping scan for the background-image pattern.
    The fuel bounds the recursion; every step consumes at least one
    character, so the input length suffices. -/
def bgScanGo : Nat → List Char → List (List Char)
  | 0, _ => []
  | fuel + 1, l =>
    match l with
    | [] => []
    | c :: cs =>
      match bgMatchHere (c :: cs) with
      | some r => r.1 :: bgScanGo fuel r.2
      | none => bgScanGo fuel cs

/-- Models the findall of the background-image pattern over a style
    attribute value. -/
def bgFindAll (style : String) : List String :=
  (bgScanGo (strL style).length (strL style)).map ofL

/-- Models the image discoverer of the scraper.  The external markup parse
    is received as the element list `doc`; the Python set of URLs is
    modelled as a duplicate-free list built with insertion. -/
def extract_image_urls_from_html (doc : List HElem) (base : String) : List String :=
  let imgTags := doc.filter (fun e => e.tag = "img")
  let step1 := imgTags.foldl (fun acc img =>
    let acc1 :=
      match img.attrs.lookup "src" with
      | some src =>
        if is_valid_image_url src then acc.insert (normalizeImageSrc base src) else acc
      | none => acc
    match img.attrs.lookup "data-src" with
    | some d =>
      if is_valid_image_url d then acc1.insert (normalizeImageSrc base d) else acc1
    | none => acc1) []
  let withStyle := doc.filter (fun e => (e.attrs.lookup "style").isSome)
  withStyle.foldl (fun acc e =>
    let style := (e.attrs.lookup "style").getD ""
    (bgFindAll style).foldl (fun acc2 bg =>
      if is_valid_image_url bg then acc2.insert (normalizeImageSrc base bg) else acc2) acc) step1

/-- Folder for downloaded images, from the scraper constructor. -/
def images_folder : String := "images"

/-- Folder for saved pages, from the scraper constructor. -/
def html_folder : String := "html"

/-- Base URL of the crawl target, from the scraper constructor. -/
def base_url : String := "https://jiopay.com"

/-- Outcome of the HTTP GET for one image URL: a transport or status error
    raised by the client, or a successful response carrying a content-type
    header. -/
inductive FetchOutcome where
  | raised
  | ok (contentType : String)
deriving DecidableEq

/-- Outcome of re-opening the saved file with the image decoder: a decoding
    failure, or the decoded pixel dimensions. -/
inductive DecodeOutcome where
  | raised
  | ok (width height : Nat)
deriving DecidableEq

/-- External collaborators of the image pipeline: robots state, HTTP
    transport, image decoder, hash library, clock, and the file read plus
    markup parse of a saved page. -/
structure ImgEnv where
  robots : Option (String → Bool)
  fetch : String → FetchOutcome
  decode : String → DecodeOutcome
  md5hex : String → String
  timestamp : String
  docOf : String → List HElem

/-- Models the image filename deriver; `md5hex` stands for the external
    hash library.  An empty content-type string is falsy in the source, so
    the extension then comes from the URL path. -/
def generate_image_filename (md5hex : String → String) (image_url : String)
    (content_type : String) (ts : String) : String :=
  let url_hash := ofL ((strL (md5hex image_url)).take 12)
  let ext :=
    if content_type ≠ "" then
      if strHasSub content_type "jpeg" || strHasSub content_type "jpg" then "jpg"
      else if strHasSub content_type "png" then "png"
      else if strHasSub content_type "gif" then "gif"
      else if strHasSub content_type "webp" then "webp"
      else if strHasSub content_type "svg" then "svg"
      else "jpg"
    else
      let path := pyLower (urlparse image_url).path
      if strEnds path ".jpg" || strEnds path ".jpeg" then "jpg"
      else if strEnds path ".png" then "png"
      else if strEnds path ".gif" then "gif"
      else if strEnds path ".webp" then "webp"
      else if strEnds path ".svg" then "svg"
      else "jpg"
  "img_" ++ url_hash ++ "_" ++ ts ++ "." ++ ext

/-- State of one image-pipeline run: the two bookkeeping sets, the image
    files on disk, the URLs the downloader was invoked on (instrumentation
    for the stated invariant), and the collected success records. -/
structure ImgRun where
  downloaded_images : List String
  failed_images : List String
  files : List String
  calls : List String
  infos : List (String × String × String)
deriving DecidableEq

/-- Models the image downloader of the scraper.  Every failure path records
    the URL among the failed images and returns nothing; the success path
    records it among the downloaded images and returns the saved path. -/
def download_image (env : ImgEnv) (image_url : String) (r0 : ImgRun) :
    Option String × ImgRun :=
  let r := { r0 with calls := r0.calls ++ [image_url] }
  if is_url_allowed env.robots allowed_domains image_url = false then
    (none, { r with failed_images := r.failed_images.insert image_url })
  else
    match env.fetch image_url with
    | .raised => (none, { r with failed_images := r.failed_images.insert image_url })
    | .ok ct =>
      let content_type := pyLower ct
      if strStarts content_type "image/" = false then
        (none, { r with failed_images := r.failed_images.insert image_url })
      else
        let filename := generate_image_filename env.md5hex image_url content_type env.timestamp
        let filepath := images_folder ++ "/" ++ filename
        let r1 := { r with files := r.files.insert filepath }
        match env.decode image_url with
        | .raised =>
          (none, { r1 with files := r1.files.erase filepath,
                           failed_images := r1.failed_images.insert image_url })
        | .ok width height =>
          if width < 10 || height < 10 then
            (none, { r1 with files := r1.files.erase filepath,
                             failed_images := r1.failed_images.insert image_url })
          else
            (some filepath, { r1 with downloaded_images := r1.downloaded_images.insert image_url })

/-- The per-file inner loop of the image pipeline: each discovered URL not
    already in either bookkeeping set is handed to the downloader, and a
    success record is appended when a path comes back. -/
def process_image_urls (env : ImgEnv) (src : String) : List String → ImgRun → ImgRun
  | [], r => r
  | u :: rest, r =>
    if u ∉ r.downloaded_images ∧ u ∉ r.failed_images then
      let res := download_image env u r
      let r1 :=
        match res.1 with
        | some p => { res.2 with infos := res.2.infos ++ [(src, u, p)] }
        | none => res.2
      process_image_urls env src rest r1
    else process_image_urls env src rest r

/-- Models the image extraction driver of the scraper: for every saved page
    the discovered URLs are processed in turn. -/
def extract_and_download_images (env : ImgEnv) : List String → ImgRun → ImgRun
  | [], r => r
  | f :: rest, r =>
    let image_urls := extract_image_urls_from_html (env.docOf f) base_url
    extract_and_download_images env rest (process_image_urls env f image_urls r)

/-- One crawl page record as the save loop receives it: a document object
    with an optional source URL in its metadata, a plain dictionary with an
    optional source URL, or a value of unknown type.  A falsy metadata
    object and a metadata object without a source URL behave identically in
    the source and are both modelled as a missing source URL; the empty
    default of the dictionary lookup of the body is folded into the body
    string. -/
inductive PageData where
  | doc (sourceURL : Option String) (html : String)
  | dict (sourceURL : Option String) (html : String)
  | other
deriving DecidableEq

/-- External collaborators of the save loop: robots state, the outcome of
    each file write, and the clock. -/
structure SaveEnv where
  robots : Option (String → Bool)
  writeOk : String → String → Bool
  timestamp : String

/-- State of the save loop: the failed URLs set, the performed writes, and
    (as instrumentation) the URLs handed to the policy filter. -/
structure SaveSt where
  failed_urls : List String
  written : List (String × String)
  policy_calls : List String
deriving DecidableEq

/-- Outcome of handling one page: skip to the next page, a saved file, or a
    propagating write exception. -/
inductive StepRes where
  | skipped (st : SaveSt)
  | saved (filepath : String) (st : SaveSt)
  | raised (st : SaveSt)
deriving DecidableEq

/-- State carried by a step outcome. -/
def stepState : StepRes → SaveSt
  | .skipped st => st
  | .saved _ st => st
  | .raised st => st

/-- Whether a page record is a document object carrying a source URL — the
    only shape for which the save loop consults the policy filter. -/
def carriesDocSource : PageData → Bool
  | .doc (some _) _ => true
  | _ => false

/-- The empty-body check and write shared by every page shape: an empty
    body records the URL as failed and skips; otherwise the file is
    written, and a write failure propagates as an exception. -/
def save_write (env : SaveEnv) (page_url html : String) (st : SaveSt) : StepRes :=
  if html = "" then .skipped { st with failed_urls := st.failed_urls.insert page_url }
  else
    let filepath := html_folder ++ "/" ++ generate_filename page_url "html" env.timestamp
    if env.writeOk filepath html then
      .saved filepath { st with written := st.written ++ [(filepath, html)] }
    else .raised st

/-- Handling of the page at index `i` in the save loop of the scraper. -/
def save_page_step (env : SaveEnv) (i : Nat) (p : PageData) (st : SaveSt) : StepRes :=
  match p with
  | .other => .skipped st
  | .doc srcOpt html =>
    match srcOpt with
    | some page_url =>
      let st1 := { st with policy_calls := st.policy_calls ++ [page_url] }
      if is_url_allowed env.robots allowed_domains page_url = false then
        .skipped { st1 with failed_urls := st1.failed_urls.insert page_url }
      else save_write env page_url html st1
    | none => save_write env (base_url ++ "/page_" ++ toString i) html st
  | .dict srcOpt html =>
    let page_url := srcOpt.getD (base_url ++ "/page_" ++ toString i)
    save_write env page_url html st

/-- The enumerated save loop; a raised write exception aborts it (the outer
    handler of the source logs and re-raises), modelled as a missing
    result. -/
def save_html_loop (env : SaveEnv) :
    List PageData → Nat → List String → SaveSt → Option (List String) × SaveSt
  | [], _, acc, st => (some acc, st)
  | p :: rest, i, acc, st =>
    match save_page_step env i p st with
    | .skipped st1 => save_html_loop env rest (i + 1) acc st1
    | .saved fp st1 => save_html_loop env rest (i + 1) (acc ++ [fp]) st1
    | .raised st1 => (none, st1)

/-- Models the page-saving routine of the scraper. -/
def save_html_files (env : SaveEnv) (crawl_data : List PageData) (st : SaveSt) :
    Option (List String) × SaveSt :=
  save_html_loop env crawl_data 0 [] st

/-- The FAQ tab categories listed in the segmenter. -/
def faq_categories : List String :=
  ["JioPay Business App", "JioPay Business Dashboard", "Collect link",
   "User Management", "Repeat", "Campaign", "Settlement", "Refunds",
   "Notifications", "Voicebox", "DQR", "Partner program", "P2PM"]

/-- Split on a question mark followed by whitespace with an upper-case
    lookahead: the question mark and the whitespace run are removed, the
    capital letter starts the next piece.  The greedy whitespace run with
    the lookahead is deterministic because no whitespace character is
    upper-case.  Fuel bounds the recursion; every step consumes at least
    one character, so wrappers pass the input length plus one. -/
def splitQCapGo : Nat → List Char → List Char → List (List Char)
  | 0, l, acc => [acc.reverse ++ l]
  | fuel + 1, l, acc =>
    match l with
    | [] => [acc.reverse]
    | c :: rest =>
      if c = '?' then
        let ws := rest.takeWhile pyIsSpace
        let after := rest.dropWhile pyIsSpace
        if !ws.isEmpty && (match after with | a :: _ => a.isUpper | [] => false) then
          acc.reverse :: splitQCapGo fuel after []
        else splitQCapGo fuel rest (c :: acc)
      else splitQCapGo fuel rest (c :: acc)

/-- Wrapper of the question-mark-with-capital-lookahead split. -/
def pySplitQCap (s : String) : List String :=
  (splitQCapGo ((strL s).length + 1) (strL s) []).map ofL

/-- Split on a question mark followed by at least one whitespace character;
    the match is removed. -/
def splitQWsGo : Nat → List Char → List Char → List (List Char)
  | 0, l, acc => [acc.reverse ++ l]
  | fuel + 1, l, acc =>
    match l with
    | [] => [acc.reverse]
    | c :: rest =>
      if c == '?' && (match rest with | a :: _ => pyIsSpace a | [] => false) then
        acc.reverse :: splitQWsGo fuel (rest.dropWhile pyIsSpace) []
      else splitQWsGo fuel rest (c :: acc)

/-- Wrapper of the question-mark-and-whitespace split. -/
def pySplitQWs (s : String) : List String :=
  (splitQWsGo ((strL s).length + 1) (strL s) []).map ofL

/-- The interrogative words of the fallback split, in alternation order. -/
def interrogWords : List String := ["What", "How", "Can", "Do", "Is", "Why", "Where", "Who"]

/-- Tries the interrogative alternation at a position already past the
    leading whitespace run: the first word in order that is a prefix and is
    followed by whitespace matches; the result is the matched word and the
    input after its trailing whitespace run. -/
def interrogMatch (after : List Char) : Option (List Char × List Char) :=
  interrogWords.findSome? (fun w =>
    let wl := strL w
    if wl.isPrefixOf after &&
        (match after.drop wl.length with | a :: _ => pyIsSpace a | [] => false) then
      some (wl, (after.drop wl.length).dropWhile pyIsSpace)
    else none)

/-- Split on whitespace, a captured interrogative word, and whitespace; the
    captured word appears as its own piece, as the stdlib split does with a
    capturing group.  A failing attempt inside a whitespace run fails at
    every later position of the same run, so advancing one character at a
    time is faithful. -/
def splitInterrogGo : Nat → List Char → List Char → List (List Char)
  | 0, l, acc => [acc.reverse ++ l]
  | fuel + 1, l, acc =>
    match l with
    | [] => [acc.reverse]
    | c :: rest =>
      if pyIsSpace c then
        match interrogMatch ((c :: rest).dropWhile pyIsSpace) with
        | some r => acc.reverse :: r.1 :: splitInterrogGo fuel r.2 []
        | none => splitInterrogGo fuel rest (c :: acc)
      else splitInterrogGo fuel rest (c :: acc)

/-- Wrapper of the interrogative-word split. -/
def pySplitInterrog (s : String) : List String :=
  (splitInterrogGo ((strL s).length + 1) (strL s) []).map ofL

/-- Left-to-right non-overlapping scan for question-shaped substrings: a
    capital letter, a run without question marks, then a question mark. -/
def findQGo : Nat → List Char → List (List Char)
  | 0, _ => []
  | fuel + 1, l =>
    match l with
    | [] => []
    | c :: rest =>
      if c.isUpper && rest.contains '?' then
        let seg := rest.takeWhile (fun a => a != '?')
        let rest2 := (rest.dropWhile (fun a => a != '?')).drop 1
        (c :: seg ++ ['?']) :: findQGo fuel rest2
      else findQGo fuel rest

/-- Wrapper of the findall of question-shaped substrings. -/
def pyFindQuestions (s : String) : List String :=
  (findQGo ((strL s).length + 1) (strL s)).map ofL

/-- Split at every occurrence of a nonempty separator, as the Python string
    split with an argument does. -/
def splitOnGo (sep : List Char) : Nat → List Char → List Char → List (List Char)
  | 0, l, acc => [acc.reverse ++ l]
  | fuel + 1, l, acc =>
    match l with
    | [] => [acc.reverse]
    | c :: rest =>
      if !sep.isEmpty && sep.isPrefixOf (c :: rest) then
        acc.reverse :: splitOnGo sep fuel ((c :: rest).drop sep.length) []
      else splitOnGo sep fuel rest (c :: acc)

/-- Wrapper of the separator split. -/
def pySplitOnStr (s sep : String) : List String :=
  (splitOnGo (strL sep) ((strL s).length + 1) (strL s) []).map ofL

/-- Models the Python no-argument split: whitespace runs delimit, empty
    pieces are dropped. -/
def wordsGo : List Char → List Char → List (List Char)
  | [], acc => if acc.isEmpty then [] else [acc.reverse]
  | c :: t, acc =>
    if pyIsSpace c then
      if acc.isEmpty then wordsGo t [] else acc.reverse :: wordsGo t []
    else wordsGo t (c :: acc)

/-- Wrapper of the no-argument split. -/
def pyWords (s : String) : List String := (wordsGo (strL s) []).map ofL

/-- Joins with newline separators, as the Python join does. -/
def joinNL : List String → String
  | [] => ""
  | [x] => x
  | x :: xs => x ++ "\n" ++ joinNL xs

/-- Insertion-ordered string dictionary, as Python dictionaries behave:
    updating an existing key keeps its position, a new key is appended. -/
def dictSet : List (String × String) → String → String → List (String × String)
  | [], k, v => [(k, v)]
  | (k1, v1) :: t, k, v => if k1 = k then (k, v) :: t else (k1, v1) :: dictSet t k v

/-- The suffix of a list beginning at the first occurrence of `needle`,
    modelling slicing from the found index; empty when absent (the source
    guards the call so that the needle is always present). -/
def suffixFromL (needle : List Char) : List Char → List Char
  | [] => []
  | c :: t => if needle.isPrefixOf (c :: t) then c :: t else suffixFromL needle t

/-- Models the FAQ segmenter of the scraper.  The source wraps this body in
    a catch-all that returns the original text under the General key; the
    body below is total, so that branch has no counterpart.  A local
    cleaned category name computed and never read in the final fallback of
    the source is omitted. -/
def parse_faq_content_by_tabs (text_content : String) : List (String × String) :=
  if strHasSub text_content "Frequently Asked Questions" ||
      faq_categories.any (fun cat => strHasSub text_content cat) then
    let questions0 := pySplitQCap text_content
    let questions :=
      if questions0.length < 5 then
        let text_parts := faq_categories.foldl (fun tp category =>
          if strHasSub text_content category then
            let parts := pySplitOnStr text_content category
            if parts.length > 1 then tp ++ (category :: parts.drop 1) else tp
          else tp) []
        if text_parts ≠ [] then text_parts
        else pySplitInterrog text_content
      else questions0
    let res := questions.foldl
      (fun (acc : List (String × String) × String × List String) part0 =>
        let tab_content := acc.1
        let current_section := acc.2.1
        let current_content := acc.2.2
        let part := pyStrip part0
        if part = "" then acc
        else
          match faq_categories.find? (fun category => strHasSub part category) with
          | some matched_category =>
            let tab1 :=
              if current_content ≠ [] then
                dictSet tab_content current_section (joinNL current_content)
              else tab_content
            let category_content := ofL (suffixFromL (strL matched_category) (strL part))
            let category_questions := pySplitQWs category_content
            let new_content := category_questions.foldl (fun cc q0 =>
              let q := pyStrip q0
              if q ≠ "" ∧ q.length > 10 then
                cc ++ [if strEnds q "?" then q else q ++ "?"]
              else cc) []
            (tab1, matched_category, new_content)
          | none =>
            if part.length > 10 then
              let part1 :=
                if ¬ strEnds part "?" = true ∧ ¬ strHasSub part "?" = true then part ++ "?"
                else part
              (tab_content, current_section, current_content ++ [part1])
            else acc)
      ([], "General", [])
    let tab1 := res.1
    let tab2 :=
      if res.2.2 ≠ [] then dictSet tab1 res.2.1 (joinNL res.2.2) else tab1
    if tab2.length ≤ 1 then
      let all_questions := pyFindQuestions text_content
      if all_questions ≠ [] then
        let tab3 := faq_categories.foldl (fun tab category =>
          let category_questions := all_questions.filter (fun question =>
            (pyWords category).any (fun keyword =>
              strHasSub (pyLower question) (pyLower keyword)))
          if category_questions ≠ [] then dictSet tab category (joinNL category_questions)
          else tab) tab2
        let remaining_questions := all_questions.filter (fun question =>
          !((tab3.map Prod.snd).any (fun cc => strHasSub cc question)))
        if remaining_questions ≠ [] then
          dictSet tab3 "General" (joinNL remaining_questions)
        else tab3
      else tab2
    else tab2
  else
    dictSet [] "General" text_content

/-- C1 counterexample: the host evil-jiopay.com is not one of the
    configured allowed domains, yet the policy filter allows the URL,
    because the domain check is substring containment on the netloc. -/
theorem c1_counterexample :
    (urlparse "https://evil-jiopay.com/x").netloc ∉ allowed_domains ∧
    is_url_allowed none allowed_domains "https://evil-jiopay.com/x" = true := by
  decide

/-- C1 amended: for every URL whose netloc contains none of the configured
    allowed domains as a substring, the policy filter returns not-allowed,
    for every robots state. -/
theorem c1_domain_reject (robots : Option (String → Bool)) (doms : List String)
    (url : String)
    (h : ∀ d ∈ doms, strHasSub (urlparse url).netloc d = false) :
    is_url_allowed robots doms url = false := by
  have hany : (doms.any fun d => strHasSub (urlparse url).netloc d) = false := by
    simp only [List.any_eq_false]
    intro d hd
    simp [h d hd]
  unfold is_url_allowed
  simp [hany]

/-- C1 amended witness at a host containing no allowed domain. -/
theorem c1_domain_reject_witness :
    is_url_allowed none allowed_domains "https://other.example/x" = false :=
  c1_domain_reject none allowed_domains "https://other.example/x" (by decide)

/-- C4: every URL whose lowered path or query contains a denylisted keyword
    is rejected, for every robots state and every domain list. -/
theorem c4_denylist_reject (robots : Option (String → Bool)) (doms : List String)
    (url : String)
    (h : ∃ kw ∈ gated_keywords,
      strHasSub (pyLower (urlparse url).path) kw = true ∨
      strHasSub (pyLower (urlparse url).query) kw = true) :
    is_url_allowed robots doms url = false := by
  obtain ⟨kw, hkw, hsub⟩ := h
  have hany : (gated_keywords.any fun k =>
      strHasSub (pyLower (urlparse url).path) k ||
      strHasSub (pyLower (urlparse url).query) k) = true := by
    refine List.any_eq_true.2 ⟨kw, hkw, ?_⟩
    rcases hsub with h1 | h1 <;> simp [h1]
  unfold is_url_allowed
  simp [hany]

/-- C4 witness: a URL with the keyword account in its path is rejected. -/
theorem c4_denylist_reject_witness :
    is_url_allowed none allowed_domains "https://jiopay.com/account/settings" = false :=
  c4_denylist_reject none allowed_domains "https://jiopay.com/account/settings"
    ⟨"account", by decide, Or.inl (by decide)⟩

/-- C9: the denylist test is plain substring containment on the lowered
    path, so the keyword auth occurring inside any longer word already
    rejects the URL, for every robots state and every domain list. -/
theorem c9_substring_reject (robots : Option (String → Bool)) (doms : List String)
    (url : String)
    (h : strHasSub (pyLower (urlparse url).path) "auth" = true) :
    is_url_allowed robots doms url = false := by
  have hany : (gated_keywords.any fun k =>
      strHasSub (pyLower (urlparse url).path) k ||
      strHasSub (pyLower (urlparse url).query) k) = true := by
    refine List.any_eq_true.2 ⟨"auth", by decide, ?_⟩
    simp [h]
  unfold is_url_allowed
  simp [hany]

/-- C9 witness: a blog author path is rejected although it addresses no
    gated content — auth occurs only inside the word author. -/
theorem c9_substring_reject_witness :
    is_url_allowed none allowed_domains "https://jiopay.com/blog/author" = false :=
  c9_substring_reject none allowed_domains "https://jiopay.com/blog/author" (by decide)

/-- C8 counterexample: a hyphen is not alphanumeric, yet the filename
    deriver keeps it, so the output differs from the claimed one at a URL
    containing a hyphen. -/
theorem c8_counterexample :
    generate_filename "https://a-b.com" "html" "20250101_000000" ≠
      pageFilenameClaim "https://a-b.com" "html" "20250101_000000" := by
  decide

/-- C8 amended: the filename deriver produces the scheme-stripped URL with
    every character other than a letter, a digit, an underscore or a hyphen
    replaced by an underscore, truncated to one hundred characters, then
    the timestamp and extension. -/
theorem c8_filename_amended (url ext ts : String) :
    generate_filename url ext ts = pageFilenameAmended url ext ts := by
  unfold generate_filename pageFilenameAmended
  have hfun : (fun c => if keepFilenameChar c then c else '_') =
      (fun c => if c.isAlphanum || c == '_' || c == '-' then c else '_') := by
    funext c
    have hchar : keepFilenameChar c = (c.isAlphanum || c == '_' || c == '-') := by
      simp [keepFilenameChar, Char.isAlphanum, Char.isAlpha,
        Bool.or_assoc, Bool.or_comm, Bool.or_left_comm]
    rw [hchar]
  have htrunc : ∀ l : List Char,
      (if l.length > 100 then l.take 100 else l) = l.take 100 := by
    intro l
    split
    · rfl
    · rw [List.take_of_length_le (by omega)]
  simp only [hfun, htrunc]

/-- C2 counterexample: on the input Settlement the segmenter takes the FAQ
    branch, every fragment is filtered out as too short, the final fallback
    finds no question-shaped substring, and the result is the empty mapping
    — it contains no General section. -/
theorem c2_counterexample :
    parse_faq_content_by_tabs "Settlement" = [] := by
  decide

/-- C2 amended: on any input containing no FAQ indicator the segmenter
    returns exactly the original text under the single General key (and the
    catch-all of the source returns the same shape on an internal failure);
    when the FAQ heuristics engage, a General section is not guaranteed. -/
theorem c2_nonfaq_general (text : String)
    (h1 : strHasSub text "Frequently Asked Questions" = false)
    (h2 : ∀ cat ∈ faq_categories, strHasSub text cat = false) :
    parse_faq_content_by_tabs text = [("General", text)] := by
  have hany : (faq_categories.any fun cat => strHasSub text cat) = false := by
    simp only [List.any_eq_false]
    intro c hc
    simp [h2 c hc]
  unfold parse_faq_content_by_tabs
  rw [h1, hany]
  simp [dictSet]

/-- C2 amended witness on a plain text without FAQ indicators. -/
theorem c2_nonfaq_general_witness :
    parse_faq_content_by_tabs "hello world" = [("General", "hello world")] :=
  c2_nonfaq_general "hello world" (by decide) (by decide)

/-- The document of the C7 example, as the markup parser presents it: two
    image tags and a block with an inline background-image style. -/
def c7doc : List HElem :=
  [⟨"img", [("src", "/a.png")]⟩,
   ⟨"img", [("data-src", "//cdn.example.com/b.jpg")]⟩,
   ⟨"div", [("style", "background-image:url('https://x.test/c.webp')")]⟩]

/-- C7: on the example document and base URL the discoverer returns exactly
    the three expected absolute URLs — root-relative resolved against the
    base, protocol-relative given the https scheme, absolute unchanged. -/
theorem c7_discoverer_example :
    (extract_image_urls_from_html c7doc "https://site.test").toFinset =
      {"https://site.test/a.png", "https://cdn.example.com/b.jpg",
       "https://x.test/c.webp"} ∧
    (extract_image_urls_from_html c7doc "https://site.test").length = 3 := by
  decide

/-- C6: whenever the policy filter allows an image URL but the response
    content-type does not start with the image prefix, the downloader
    returns nothing, records the URL among the failed images, and leaves
    the files on disk unchanged. -/
theorem c6_content_type_failure (env : ImgEnv) (image_url ct : String) (r : ImgRun)
    (hallow : is_url_allowed env.robots allowed_domains image_url = true)
    (hfetch : env.fetch image_url = .ok ct)
    (hct : strStarts (pyLower ct) "image/" = false) :
    (download_image env image_url r).1 = none ∧
    image_url ∈ (download_image env image_url r).2.failed_images ∧
    (download_image env image_url r).2.files = r.files := by
  simp [download_image, hallow, hfetch, hct, List.mem_insert_iff]

/-- Environment of the C6 witness: a transport returning an html page for
    every URL. -/
def c6env : ImgEnv :=
  { robots := none
    fetch := fun _ => .ok "text/html"
    decode := fun _ => .ok 100 100
    md5hex := fun _ => "0123456789abcdef"
    timestamp := "20250101_000000"
    docOf := fun _ => [] }

/-- C6 witness at a concrete URL and an html content-type. -/
theorem c6_content_type_failure_witness :
    (download_image c6env "https://jiopay.com/pic.png" ⟨[], [], [], [], []⟩).1 = none ∧
    "https://jiopay.com/pic.png" ∈
      (download_image c6env "https://jiopay.com/pic.png" ⟨[], [], [], [], []⟩).2.failed_images ∧
    (download_image c6env "https://jiopay.com/pic.png" ⟨[], [], [], [], []⟩).2.files =
      (⟨[], [], [], [], []⟩ : ImgRun).files :=
  c6_content_type_failure c6env "https://jiopay.com/pic.png" "text/html"
    ⟨[], [], [], [], []⟩ (by decide) rfl (by decide)

/-- Environment of the C5 counterexample: every file write fails. -/
def c5env : SaveEnv :=
  { robots := none, writeOk := fun _ _ => false, timestamp := "20250101_000000" }

/-- Pages of the C5 counterexample: two allowed pages with bodies. -/
def c5pages : List PageData :=
  [PageData.doc (some "https://jiopay.com/a") "<p>x</p>",
   PageData.doc (some "https://jiopay.com/b") "<p>y</p>"]

/-- C5 counterexample: when the write of the first page fails, the save
    routine aborts with the exception propagating — the failed page URL is
    never recorded among the failed URLs and the second page is never
    reached (only the first page consulted the policy filter). -/
theorem c5_counterexample :
    save_html_files c5env c5pages ⟨[], [], []⟩ =
      (none, ⟨[], [], ["https://jiopay.com/a"]⟩) ∧
    "https://jiopay.com/a" ∉ (save_html_files c5env c5pages ⟨[], [], []⟩).2.failed_urls := by
  decide

/-- C5 amended: when the write of an allowed nonempty page fails, the save
    loop returns the propagating exception with the state unchanged beyond
    the recorded policy consult — the page URL is not added to the failed
    set and the remaining pages are not processed. -/
theorem c5_write_failure_aborts (env : SaveEnv) (u html : String)
    (rest : List PageData) (i : Nat) (acc : List String) (st : SaveSt)
    (hallow : is_url_allowed env.robots allowed_domains u = true)
    (hhtml : html ≠ "")
    (hw : env.writeOk (html_folder ++ "/" ++ generate_filename u "html" env.timestamp)
      html = false) :
    save_html_loop env (PageData.doc (some u) html :: rest) i acc st =
      (none, { st with policy_calls := st.policy_calls ++ [u] }) := by
  simp [save_html_loop, save_page_step, save_write, hallow, hhtml, hw]

/-- Environment of the C5 amended witness. -/
def c5wenv : SaveEnv :=
  { robots := none, writeOk := fun _ _ => false, timestamp := "20250101_000000" }

/-- C5 amended witness at a concrete allowed page whose write fails. -/
theorem c5_write_failure_aborts_witness :
    save_html_loop c5wenv [PageData.doc (some "https://jiopay.com/a") "x"] 0 [] ⟨[], [], []⟩ =
      (none, ⟨[], [], ["https://jiopay.com/a"]⟩) :=
  c5_write_failure_aborts c5wenv "https://jiopay.com/a" "x" [] 0 [] ⟨[], [], []⟩
    (by decide) (by decide) (by decide)

/-- The write helper never touches the policy-consult instrumentation. -/
theorem save_write_policy_calls (env : SaveEnv) (u html : String) (st : SaveSt) :
    (stepState (save_write env u html st)).policy_calls = st.policy_calls := by
  simp only [save_write]
  split
  · rfl
  · split <;> rfl

/-- C10: a page record with a nonempty body and no source URL is written
    under the synthetic page URL of its index without the policy filter
    being consulted, for both the document and the dictionary shapes; and
    any page shape other than a document carrying a source URL leaves the
    policy-consult log untouched. -/
theorem c10_synthetic_url (env : SaveEnv) (i : Nat) (html : String) (st : SaveSt)
    (p : PageData) (hhtml : html ≠ "")
    (hw : env.writeOk
      (html_folder ++ "/" ++
        generate_filename (base_url ++ "/page_" ++ toString i) "html" env.timestamp)
      html = true)
    (hp : carriesDocSource p = false) :
    (save_page_step env i (PageData.doc none html) st =
      StepRes.saved
        (html_folder ++ "/" ++
          generate_filename (base_url ++ "/page_" ++ toString i) "html" env.timestamp)
        { st with written := st.written ++
            [(html_folder ++ "/" ++
                generate_filename (base_url ++ "/page_" ++ toString i) "html" env.timestamp,
              html)] }) ∧
    (save_page_step env i (PageData.dict none html) st =
      StepRes.saved
        (html_folder ++ "/" ++
          generate_filename (base_url ++ "/page_" ++ toString i) "html" env.timestamp)
        { st with written := st.written ++
            [(html_folder ++ "/" ++
                generate_filename (base_url ++ "/page_" ++ toString i) "html" env.timestamp,
              html)] }) ∧
    (stepState (save_page_step env i p st)).policy_calls = st.policy_calls := by
  refine ⟨?_, ?_, ?_⟩
  · simp [save_page_step, save_write, hhtml, hw]
  · simp [save_page_step, save_write, hhtml, hw]
  · cases p with
    | doc srcOpt h =>
      cases srcOpt with
      | some u => simp [carriesDocSource] at hp
      | none =>
        simpa [save_page_step] using
          save_write_policy_calls env (base_url ++ "/page_" ++ toString i) h st
    | dict srcOpt h =>
      simpa [save_page_step] using
        save_write_policy_calls env (srcOpt.getD (base_url ++ "/page_" ++ toString i)) h st
    | other => rfl

/-- Environment of the C10 witness: every write succeeds. -/
def c10env : SaveEnv :=
  { robots := none, writeOk := fun _ _ => true, timestamp := "20250101_000000" }

/-- C10 witness at index zero with a concrete body and an unknown-shape
    page for the policy-consult part. -/
theorem c10_synthetic_url_witness :
    (save_page_step c10env 0 (PageData.doc none "x") ⟨[], [], []⟩ =
      StepRes.saved
        (html_folder ++ "/" ++
          generate_filename (base_url ++ "/page_" ++ toString 0) "html" c10env.timestamp)
        { (⟨[], [], []⟩ : SaveSt) with written := (⟨[], [], []⟩ : SaveSt).written ++
            [(html_folder ++ "/" ++
                generate_filename (base_url ++ "/page_" ++ toString 0) "html" c10env.timestamp,
              "x")] }) ∧
    (save_page_step c10env 0 (PageData.dict none "x") ⟨[], [], []⟩ =
      StepRes.saved
        (html_folder ++ "/" ++
          generate_filename (base_url ++ "/page_" ++ toString 0) "html" c10env.timestamp)
        { (⟨[], [], []⟩ : SaveSt) with written := (⟨[], [], []⟩ : SaveSt).written ++
            [(html_folder ++ "/" ++
                generate_filename (base_url ++ "/page_" ++ toString 0) "html" c10env.timestamp,
              "x")] }) ∧
    (stepState (save_page_step c10env 0 PageData.other ⟨[], [], []⟩)).policy_calls =
      (⟨[], [], []⟩ : SaveSt).policy_calls :=
  c10_synthetic_url c10env 0 "x" ⟨[], [], []⟩ PageData.other
    (by decide) rfl rfl

/-- Growth of one image-run state into another: both bookkeeping sets only
    grow, the call log extends by pairwise-distinct URLs each fresh for the
    starting sets and present in one of the final sets, and disjointness of
    the two sets is preserved. -/
def RunExtends (r r' : ImgRun) : Prop :=
  (∀ u ∈ r.downloaded_images, u ∈ r'.downloaded_images) ∧
  (∀ u ∈ r.failed_images, u ∈ r'.failed_images) ∧
  (∃ new, r'.calls = r.calls ++ new ∧ new.Nodup ∧
    ∀ u ∈ new, (u ∉ r.downloaded_images ∧ u ∉ r.failed_images) ∧
      (u ∈ r'.downloaded_images ∨ u ∈ r'.failed_images)) ∧
  ((∀ u ∈ r.downloaded_images, u ∉ r.failed_images) →
    (∀ u ∈ r'.downloaded_images, u ∉ r'.failed_images))

/-- Growth is reflexive. -/
theorem runExtends_refl (r : ImgRun) : RunExtends r r :=
  ⟨fun _ h => h, fun _ h => h, ⟨[], by simp, List.nodup_nil, by simp⟩, fun h => h⟩

/-- Growth composes. -/
theorem runExtends_trans {a b c : ImgRun} (h1 : RunExtends a b) (h2 : RunExtends b c) :
    RunExtends a c := by
  obtain ⟨m1, m2, ⟨n1, hc1, hd1, hn1⟩, hp1⟩ := h1
  obtain ⟨m1', m2', ⟨n2, hc2, hd2, hn2⟩, hp2⟩ := h2
  refine ⟨fun u hu => m1' u (m1 u hu), fun u hu => m2' u (m2 u hu),
    ⟨n1 ++ n2, ?_, ?_, ?_⟩, fun h => hp2 (hp1 h)⟩
  · rw [hc2, hc1, List.append_assoc]
  · rw [List.nodup_append]
    refine ⟨hd1, hd2, ?_⟩
    intro x hx1 hx2
    rcases (hn1 x hx1).2 with h | h
    · exact (hn2 x hx2).1.1 h
    · exact (hn2 x hx2).1.2 h
  · intro u hu
    rcases List.mem_append.1 hu with h | h
    · refine ⟨(hn1 u h).1, ?_⟩
      rcases (hn1 u h).2 with hb | hb
      · exact Or.inl (m1' u hb)
      · exact Or.inr (m2' u hb)
    · exact ⟨⟨fun ha => (hn2 u h).1.1 (m1 u ha), fun ha => (hn2 u h).1.2 (m2 u ha)⟩,
        (hn2 u h).2⟩

/-- A step that logs one fresh URL and inserts it into the failed set is a
    growth step. -/
theorem runExtends_of_failed (r r' : ImgRun) (u : String)
    (hd : u ∉ r.downloaded_images) (hf : u ∉ r.failed_images)
    (h1 : r'.downloaded_images = r.downloaded_images)
    (h2 : r'.failed_images = r.failed_images.insert u)
    (h3 : r'.calls = r.calls ++ [u]) : RunExtends r r' := by
  refine ⟨?_, ?_, ⟨[u], h3, List.nodup_singleton u, ?_⟩, ?_⟩
  · intro v hv; rw [h1]; exact hv
  · intro v hv; rw [h2]; exact List.mem_insert_of_mem hv
  · intro v hv
    simp only [List.mem_singleton] at hv
    rw [hv]
    exact ⟨⟨hd, hf⟩, Or.inr (by rw [h2]; exact List.mem_insert_self u _)⟩
  · intro hinv v hv
    rw [h1] at hv
    rw [h2]
    intro hvf
    rcases List.mem_insert_iff.1 hvf with h | h
    · exact hd (h ▸ hv)
    · exact hinv v hv h

/-- A step that logs one fresh URL and inserts it into the downloaded set
    is a growth step. -/
theorem runExtends_of_downloaded (r r' : ImgRun) (u : String)
    (hd : u ∉ r.downloaded_images) (hf : u ∉ r.failed_images)
    (h1 : r'.downloaded_images = r.downloaded_images.insert u)
    (h2 : r'.failed_images = r.failed_images)
    (h3 : r'.calls = r.calls ++ [u]) : RunExtends r r' := by
  refine ⟨?_, ?_, ⟨[u], h3, List.nodup_singleton u, ?_⟩, ?_⟩
  · intro v hv; rw [h1]; exact List.mem_insert_of_mem hv
  · intro v hv; rw [h2]; exact hv
  · intro v hv
    simp only [List.mem_singleton] at hv
    rw [hv]
    exact ⟨⟨hd, hf⟩, Or.inl (by rw [h1]; exact List.mem_insert_self u _)⟩
  · intro hinv v hv
    rw [h2]
    rw [h1] at hv
    rcases List.mem_insert_iff.1 hv with h | h
    · exact h ▸ hf
    · exact hinv v h

/-- Every invocation of the downloader on a URL fresh for both sets is a
    growth step: the URL is logged once and lands in exactly one set. -/
theorem download_image_extends (env : ImgEnv) (u : String) (r : ImgRun)
    (hd : u ∉ r.downloaded_images) (hf : u ∉ r.failed_images) :
    RunExtends r (download_image env u r).2 := by
  simp only [download_image]
  repeat' split
  all_goals first
    | exact runExtends_of_failed _ _ u hd hf rfl rfl rfl
    | exact runExtends_of_downloaded _ _ u hd hf rfl rfl rfl

/-- Updating only the success records is a growth step. -/
theorem runExtends_infos (r : ImgRun) (v : List (String × String × String)) :
    RunExtends r { r with infos := v } :=
  ⟨fun _ h => h, fun _ h => h, ⟨[], by simp, List.nodup_nil, by simp⟩, fun h => h⟩

/-- The guarded per-file loop of the image pipeline is a growth step. -/
theorem process_image_urls_extends (env : ImgEnv) (src : String) (urls : List String) :
    ∀ r : ImgRun, RunExtends r (process_image_urls env src urls r) := by
  induction urls with
  | nil => intro r; exact runExtends_refl r
  | cons u rest ih =>
    intro r
    simp only [process_image_urls]
    split
    · rename_i h
      rcases hdl : download_image env u r with ⟨o, r2⟩
      have h1 : RunExtends r r2 := by
        have h0 := download_image_extends env u r h.1 h.2
        rwa [hdl] at h0
      cases o with
      | some p =>
        exact runExtends_trans (runExtends_trans h1 (runExtends_infos r2 _)) (ih _)
      | none => exact runExtends_trans h1 (ih _)
    · exact ih r

/-- The whole image pipeline is a growth step. -/
theorem extract_and_download_images_extends (env : ImgEnv) (files : List String) :
    ∀ r : ImgRun, RunExtends r (extract_and_download_images env files r) := by
  induction files with
  | nil => intro r; exact runExtends_refl r
  | cons f rest ih =>
    intro r
    simp only [extract_and_download_images]
    exact runExtends_trans (process_image_urls_extends env f _ r) (ih _)

/-- C3: starting from disjoint bookkeeping sets and a fresh call log, a run
    of the image pipeline keeps every URL in at most one of the downloaded
    and failed sets, never invokes the downloader twice for the same URL,
    and never invokes it for a URL already present in either set. -/
theorem c3_download_invariant (env : ImgEnv) (files : List String) (r : ImgRun)
    (hcalls : r.calls = [])
    (hinv : ∀ u ∈ r.downloaded_images, u ∉ r.failed_images) :
    (∀ u ∈ (extract_and_download_images env files r).downloaded_images,
       u ∉ (extract_and_download_images env files r).failed_images) ∧
    (extract_and_download_images env files r).calls.Nodup ∧
    (∀ u ∈ (extract_and_download_images env files r).calls,
       u ∉ r.downloaded_images ∧ u ∉ r.failed_images) := by
  obtain ⟨hm1, hm2, ⟨new, hc, hnd, hnew⟩, hpres⟩ :=
    extract_and_download_images_extends env files r
  refine ⟨hpres hinv, ?_, ?_⟩
  · rw [hc, hcalls, List.nil_append]
    exact hnd
  · intro u hu
    rw [hc, hcalls, List.nil_append] at hu
    exact (hnew u hu).1

/-- Environment of the C3 witness: two saved pages referencing overlapping
    images, one image fetch succeeding and one failing. -/
def c3env : ImgEnv :=
  { robots := none
    fetch := fun u => if u = "https://jiopay.com/pic.png" then .ok "image/png" else .raised
    decode := fun _ => .ok 100 100
    md5hex := fun _ => "0123456789abcdef"
    timestamp := "20250101_000000"
    docOf := fun f =>
      if f = "page1.html" then
        [⟨"img", [("src", "/pic.png")]⟩, ⟨"img", [("src", "/logo-image.gif")]⟩]
      else [⟨"img", [("src", "/pic.png")]⟩] }

/-- C3 witness on a concrete two-page run starting from the fresh state. -/
theorem c3_download_invariant_witness :
    (∀ u ∈ (extract_and_download_images c3env ["page1.html", "page2.html"]
        ⟨[], [], [], [], []⟩).downloaded_images,
       u ∉ (extract_and_download_images c3env ["page1.html", "page2.html"]
        ⟨[], [], [], [], []⟩).failed_images) ∧
    (extract_and_download_images c3env ["page1.html", "page2.html"]
        ⟨[], [], [], [], []⟩).calls.Nodup ∧
    (∀ u ∈ (extract_and_download_images c3env ["page1.html", "page2.html"]
        ⟨[], [], [], [], []⟩).calls,
       u ∉ (⟨[], [], [], [], []⟩ : ImgRun).downloaded_images ∧
       u ∉ (⟨[], [], [], [], []⟩ : ImgRun).failed_images) :=
  c3_download_invariant c3env ["page1.html", "page2.html"] ⟨[], [], [], [], []⟩
    rfl (by simp)
